import Mathlib

/-!
Shallow embedding of the data-access layer of political-pulse-mapper and
proofs about its behaviour.  The definitions below are translated from the
TypeScript source: the ideology classifier, the party row transformer, the
policy row parser, the three read operations in their several variants, the
lazy connection managers, the browser HTTP-with-fallback variant, and the
three HTTP handlers.  JavaScript numbers are modelled as rationals, nullable
columns as `Option`, thrown exceptions as `Except`, and JavaScript string
truthiness (`""` and `null` are falsy) explicitly.
-/

namespace PoliticalPulse

/-- The seven ideology labels, from `src/types/political.ts` (`type Ideology`). -/
inductive Ideology where
  | liberal
  | conservative
  | libertarian
  | authoritarian
  | centrist
  | socialist
  | green
deriving DecidableEq, Repr

/-- Translation of `determineIdeology(leftRight, authLib)` from
`src/api/parties.ts` (and its identical copies in `src/unnamed/part_002`):
a cascade of strict comparisons over the two coordinates, first match wins. -/
def determineIdeology (leftRight authLib : ℚ) : Ideology :=
  if |leftRight| < 1 ∧ |authLib| < 1 then .centrist
  else if leftRight < -2 ∧ authLib > 2 then .liberal
  else if leftRight > 2 ∧ authLib < -2 then .conservative
  else if leftRight > 2 ∧ authLib > 2 then .libertarian
  else if leftRight < -2 ∧ authLib < -2 then .authoritarian
  else if leftRight < -3 then .socialist
  else if authLib > 3 then .green
  else .centrist

/-- The spec's ordered rule list for the classifier (spec §4.1, rules 1–7;
rule 8 is the default).  Each rule is a decidable guard on the pair of
coordinates together with the label it yields. -/
def ideologyRules : List ((ℚ → ℚ → Bool) × Ideology) :=
  [ (fun e p => decide (|e| < 1 ∧ |p| < 1), .centrist),
    (fun e p => decide (e < -2 ∧ p > 2), .liberal),
    (fun e p => decide (e > 2 ∧ p < -2), .conservative),
    (fun e p => decide (e > 2 ∧ p > 2), .libertarian),
    (fun e p => decide (e < -2 ∧ p < -2), .authoritarian),
    (fun e _ => decide (e < -3), .socialist),
    (fun _ p => decide (p > 3), .green) ]

/-- Classification as the spec words it: the label of the first matching rule
of the ordered list, defaulting to centrist when no rule matches. -/
def classifyFirstMatch (e p : ℚ) : Ideology :=
  ((ideologyRules.find? (fun r => r.1 e p)).map Prod.snd).getD .centrist

/-- JavaScript `String.prototype.split(' ')` splits on every single space
character, keeping empty fragments; an empty input yields one empty
fragment.  Implemented over the character list of the string. -/
def splitSpaceAux : List Char → List Char → List (List Char)
  | [], acc => [acc.reverse]
  | c :: cs, acc =>
    if c = ' ' then acc.reverse :: splitSpaceAux cs []
    else splitSpaceAux cs (c :: acc)

/-- `name.split(' ')` as used by `transformDBPartyToAppParty`. -/
def splitOnSingleSpace (s : String) : List String :=
  (splitSpaceAux s.data []).map (fun cs => String.mk cs)

/-- The short-name derivation from `transformDBPartyToAppParty`
(`src/api/parties.ts`): `nameWords.length > 2 ? nameWords[0] :
nameWords.slice(0, 2).join(' ')`. -/
def shortNameOf (name : String) : String :=
  let nameWords := splitOnSingleSpace name
  if nameWords.length > 2 then nameWords.headD ""
  else String.intercalate " " (nameWords.take 2)

/-- **C1** For every pair of rational coordinates the classifier returns
exactly the label of the first matching rule of the spec's ordered list
(default centrist), and the spec's boundary examples hold: `(-2, 3)` is not
liberal, `(-2.01, 2.01)` is liberal, `(-4, 0)` is socialist, `(0, 4)` is
green. -/
theorem determineIdeology_first_match :
    (∀ e p : ℚ, determineIdeology e p = classifyFirstMatch e p)
    ∧ determineIdeology (-2) 3 ≠ .liberal
    ∧ determineIdeology (-201/100) (201/100) = .liberal
    ∧ determineIdeology (-4) 0 = .socialist
    ∧ determineIdeology 0 4 = .green := by
  refine ⟨fun e p => ?_, ?_, ?_, ?_, ?_⟩
  case refine_2 => unfold determineIdeology; norm_num [abs_lt]; decide
  case refine_3 => unfold determineIdeology; norm_num [abs_lt]
  case refine_4 => unfold determineIdeology; norm_num [abs_lt]
  case refine_5 => unfold determineIdeology; norm_num [abs_lt]
  simp only [determineIdeology, classifyFirstMatch, ideologyRules, List.find?, gt_iff_lt]
  by_cases c1 : |e| < 1 <;>
    by_cases c2 : |p| < 1 <;>
      by_cases a1 : e < -2 <;>
        by_cases a2 : 2 < e <;>
          by_cases a3 : e < -3 <;>
            by_cases b1 : 2 < p <;>
              by_cases b2 : p < -2 <;>
                by_cases b3 : 3 < p <;>
                  simp [c1, c2, a1, a2, a3, b1, b2, b3]

/-- **C6 counterexample** The claim's third example fails on the code:
`"Alliance 90/The Greens"` splits into three words, so the derived short
name is the first word `"Alliance"`, not `"Alliance 90/The"`. -/
theorem shortNameOf_alliance_not_two_words :
    shortNameOf "Alliance 90/The Greens" ≠ "Alliance 90/The" := by decide

/-- **C6 amended** The short name is the first word when the split on single
spaces yields more than two words, and otherwise the first two words (or the
single word) joined with a space; `"Christian Democratic Union"` yields
`"Christian"`, `"FDP"` yields `"FDP"`, and `"Alliance 90/The Greens"`
yields `"Alliance"`. -/
theorem shortNameOf_spec :
    (∀ name : String,
      shortNameOf name =
        if (splitOnSingleSpace name).length > 2 then (splitOnSingleSpace name).headD ""
        else String.intercalate " " ((splitOnSingleSpace name).take 2))
    ∧ shortNameOf "Christian Democratic Union" = "Christian"
    ∧ shortNameOf "FDP" = "FDP"
    ∧ shortNameOf "Alliance 90/The Greens" = "Alliance" := by
  exact ⟨fun name => rfl, by decide, by decide, by decide⟩

/-! ### Policy row parsing (`fetchPartyPolicies` / `fetchPartyPoliciesFromDatabase`) -/

/-- Outcome of `JSON.parse` on a category column as far as the code inspects
it: `Array.isArray(parsed)` either holds (an array, read as a string list) or
it does not. -/
inductive JsonValue where
  | arr (xs : List String)
  | notArr
deriving DecidableEq, Repr

/-- A stored `llm_responses` row, from `LLMPolicyResponse` in
`src/types/political.ts` and the columns selected by the policy query. -/
structure LLMRow where
  id : Int
  party_id : String
  country : String
  timestamp : String
  chunk_index : Int
  policy_id : Option Int
  policy_text : Option String
  short_name : Option String
  impact : Option String
  impact_explanation : Option String
  category : Option String
  explanation : Option String
  econ_freedom : Option ℚ
  personal_freedom : Option ℚ
  weight : Option ℚ
  error : Option String
deriving DecidableEq, Repr

/-- The normalized policy shape (`PolicyAnalysis` in
`src/types/political.ts`).  `impact` is declared there as the union
`'high' | 'medium' | 'low'`, but the code builds it with an unchecked type
assertion, so the runtime value is an arbitrary string and is modelled as
such. -/
structure PolicyAnalysis where
  policyText : String
  shortName : String
  impact : String
  categories : List String
  explanation : String
  econFreedom : Option ℚ
  personalFreedom : Option ℚ
deriving DecidableEq, Repr

/-- JavaScript truthiness of a nullable string: `null` and `""` are falsy. -/
def strTruthy : Option String → Bool
  | none => false
  | some s => s != ""

/-- JavaScript `a || b` on a nullable string `a`: keep `a` when truthy,
else `b`. -/
def jsStringOr (a : Option String) (b : String) : String :=
  match a with
  | some s => if s = "" then b else s
  | none => b

/-- Translation of `(impact as 'high' | 'medium' | 'low') || 'medium'`: the
cast has no runtime effect, and `||` replaces only the falsy values `null`
and `""` with `"medium"`; any other string passes through unchanged. -/
def normalizeImpact (impact : Option String) : String :=
  match impact with
  | some s => if s = "" then "medium" else s
  | none => "medium"

/-- Translation of the category-decoding block: when the column is truthy,
`JSON.parse` it inside a try/catch (`parse s = none` models a thrown parse
error, which is caught), keep the result when it is an array, and fall back
to the empty array in every other case. -/
def parseCategories (parse : String → Option JsonValue) (categoryJson : Option String) :
    List String :=
  match categoryJson with
  | none => []
  | some s =>
    if s = "" then []
    else
      match parse s with
      | some (.arr xs) => xs
      | some .notArr => []
      | none => []

/-- The category rule as the spec words it (§4.3): attempt to parse the
column as JSON; if the column is absent, the parse fails, or the result is
not an array, yield the empty array. -/
def categoriesSpec (parse : String → Option JsonValue) (categoryJson : Option String) :
    List String :=
  match categoryJson with
  | none => []
  | some s =>
    match parse s with
    | some (.arr xs) => xs
    | _ => []

/-- The per-row body of the policy loop: skip the row when `policy_text` or
`short_name` is falsy, otherwise build the normalized record exactly as the
source pushes it. -/
def rowToPolicy (parse : String → Option JsonValue) (row : LLMRow) : Option PolicyAnalysis :=
  match row.policy_text, row.short_name with
  | some pt, some sn =>
    if pt = "" ∨ sn = "" then none
    else
      some { policyText := pt
             shortName := sn
             impact := normalizeImpact row.impact
             categories := parseCategories parse row.category
             explanation := jsStringOr row.explanation (jsStringOr row.impact_explanation "")
             econFreedom := row.econ_freedom
             personalFreedom := row.personal_freedom }
  | _, _ => none

/-- Ascending `(chunk_index, policy_id)` comparison used by `ORDER BY`;
SQL nulls sort first in SQLite's ascending order. -/
def policyRowLe (a b : LLMRow) : Bool :=
  decide (a.chunk_index < b.chunk_index) ||
    (decide (a.chunk_index = b.chunk_index) &&
      match a.policy_id, b.policy_id with
      | none, _ => true
      | some _, none => false
      | some x, some y => decide (x ≤ y))

/-- The rows returned by the query
`WHERE party_id = ? AND policy_text IS NOT NULL AND error IS NULL
ORDER BY chunk_index, policy_id` over a stored table. -/
def sqlSelectPolicyRows (table : List LLMRow) (partyId : String) : List LLMRow :=
  List.insertionSort (fun a b => policyRowLe a b = true)
    (table.filter
      (fun r => decide (r.party_id = partyId) && decide (r.policy_text ≠ none) &&
        decide (r.error = none)))

/-- The policy read operation over a stored table (the SQLite branch of
`fetchPartyPolicies` / `fetchPartyPoliciesFromDatabase`, under a
successfully initialized store): run the query, then the per-row loop with
its skips. -/
def fetchPartyPoliciesRows (parse : String → Option JsonValue) (table : List LLMRow)
    (partyId : String) : List PolicyAnalysis :=
  (sqlSelectPolicyRows table partyId).filterMap (rowToPolicy parse)

/-- **C5** Evaluation of the impact normalization at the failing input: a
stored impact of `"severe"` (non-null, non-empty, not one of the three
literals) passes through unchanged instead of collapsing to `"medium"`,
while the three literals and the absent/empty cases behave as documented. -/
theorem normalizeImpact_passthrough :
    normalizeImpact (some "severe") = "severe"
    ∧ normalizeImpact (some "severe") ≠ "medium"
    ∧ normalizeImpact (some "high") = "high"
    ∧ normalizeImpact (some "medium") = "medium"
    ∧ normalizeImpact (some "low") = "low"
    ∧ normalizeImpact none = "medium"
    ∧ normalizeImpact (some "") = "medium" := by
  decide

/-- **C7** Every element of the policy read operation's output derives from
a stored row of the queried party whose `error` column is null and whose
policy text is non-null (and non-empty): rows failing those conditions are
excluded entirely. -/
theorem fetchPartyPolicies_excludes_error_rows :
    ∀ (parse : String → Option JsonValue) (table : List LLMRow) (partyId : String)
      (p : PolicyAnalysis), p ∈ fetchPartyPoliciesRows parse table partyId →
      ∃ r ∈ table, r.party_id = partyId ∧ r.error = none ∧
        ∃ t, r.policy_text = some t ∧ t ≠ "" ∧ p.policyText = t := by
  intro parse table partyId p hp
  unfold fetchPartyPoliciesRows at hp
  obtain ⟨r, hr, hconv⟩ := List.mem_filterMap.mp hp
  unfold sqlSelectPolicyRows at hr
  rw [(List.perm_insertionSort _ _).mem_iff, List.mem_filter] at hr
  obtain ⟨hmem, hpred⟩ := hr
  simp only [Bool.and_eq_true, decide_eq_true_eq] at hpred
  obtain ⟨⟨hparty, htext⟩, herr⟩ := hpred
  refine ⟨r, hmem, hparty, herr, ?_⟩
  unfold rowToPolicy at hconv
  cases hpt : r.policy_text with
  | none => rw [hpt] at hconv; cases r.short_name <;> simp at hconv
  | some pt =>
    cases hsn : r.short_name with
    | none => rw [hpt, hsn] at hconv; simp at hconv
    | some sn =>
      rw [hpt, hsn] at hconv
      by_cases hskip : pt = "" ∨ sn = ""
      · simp [hskip] at hconv
      · push_neg at hskip
        simp only [hskip.1, hskip.2, or_self, if_false] at hconv
        refine ⟨pt, rfl, hskip.1, ?_⟩
        cases hconv
        rfl

/-- A well-formed stored policy row used to instantiate the universally
quantified theorems at a concrete input. -/
def rowGood : LLMRow :=
  { id := 1, party_id := "p1", country := "Czech Republic", timestamp := "t0",
    chunk_index := 0, policy_id := some 1,
    policy_text := some "Lower taxes", short_name := some "Taxes",
    impact := some "high", impact_explanation := none,
    category := none, explanation := none,
    econ_freedom := none, personal_freedom := none, weight := none,
    error := none }

/-- The normalized output produced from `rowGood`. -/
def polGood : PolicyAnalysis :=
  { policyText := "Lower taxes", shortName := "Taxes", impact := "high",
    categories := [], explanation := "", econFreedom := none,
    personalFreedom := none }

/-- **C7 witness** The exclusion theorem instantiated on a concrete
single-row table. -/
theorem fetchPartyPolicies_excludes_error_rows_witness :
    ∃ r ∈ [rowGood], r.party_id = "p1" ∧ r.error = none ∧
      ∃ t, r.policy_text = some t ∧ t ≠ "" ∧ polGood.policyText = t :=
  fetchPartyPolicies_excludes_error_rows (fun _ => none) [rowGood] "p1" polGood (by decide)

/-- **C8** Assuming only that `JSON.parse` rejects the empty string, a row's
normalized `categories` field equals the spec's rule (the decoded value when
the column parses to a JSON array, the empty array when the column is null,
fails to parse, or parses to a non-array), a row is included exactly when
its policy text and short name are truthy, and inclusion is independent of
the parse outcome — a parse failure neither throws nor excludes the row. -/
theorem rowToPolicy_categories_spec :
    ∀ (parse parse2 : String → Option JsonValue) (r : LLMRow),
      parse "" = none →
      ((rowToPolicy parse r).isSome = true ↔
        (strTruthy r.policy_text = true ∧ strTruthy r.short_name = true))
      ∧ (∀ pol, rowToPolicy parse r = some pol →
          pol.categories = categoriesSpec parse r.category)
      ∧ (rowToPolicy parse r).isSome = (rowToPolicy parse2 r).isSome := by
  intro parse parse2 r hparse
  refine ⟨?_, ?_, ?_⟩
  · unfold rowToPolicy strTruthy
    cases r.policy_text with
    | none => simp
    | some pt =>
      cases r.short_name with
      | none => simp
      | some sn =>
        by_cases hskip : pt = "" ∨ sn = ""
        · rcases hskip with h | h <;> simp [h]
        · push_neg at hskip
          simp [hskip.1, hskip.2]
  · intro pol hpol
    unfold rowToPolicy at hpol
    cases hpt : r.policy_text with
    | none => rw [hpt] at hpol; cases r.short_name <;> simp at hpol
    | some pt =>
      cases hsn : r.short_name with
      | none => rw [hpt, hsn] at hpol; simp at hpol
      | some sn =>
        rw [hpt, hsn] at hpol
        by_cases hskip : pt = "" ∨ sn = ""
        · simp [hskip] at hpol
        · simp only [hskip, if_false] at hpol
          cases hpol
          show parseCategories parse r.category = categoriesSpec parse r.category
          unfold parseCategories categoriesSpec
          cases r.category with
          | none => rfl
          | some s =>
            by_cases hs : s = ""
            · subst hs; simp [hparse]
            · simp only [hs, if_false]
              cases parse s with
              | none => rfl
              | some v => cases v <;> rfl
  · unfold rowToPolicy
    cases r.policy_text with
    | none => rfl
    | some pt =>
      cases r.short_name with
      | none => rfl
      | some sn =>
        by_cases hskip : pt = "" ∨ sn = ""
        · simp [hskip]
        · simp [hskip]

/-- A stored policy row whose category column is malformed JSON. -/
def rowMalformed : LLMRow :=
  { rowGood with category := some "not valid json" }

/-- **C8 witness** The categories theorem instantiated on the malformed-JSON
row with a parse function that fails on every input: the row is still
included and its categories collapse to the empty array. -/
theorem rowToPolicy_categories_spec_witness :
    ((rowToPolicy (fun _ => none) rowMalformed).isSome = true ↔
      (strTruthy rowMalformed.policy_text = true ∧ strTruthy rowMalformed.short_name = true))
    ∧ polGood.categories = categoriesSpec (fun _ => none) rowMalformed.category
    ∧ (rowToPolicy (fun _ => none) rowMalformed).isSome =
        (rowToPolicy (fun _ => some (.arr ["x"])) rowMalformed).isSome := by
  have h := rowToPolicy_categories_spec (fun _ => none) (fun _ => some (.arr ["x"]))
    rowMalformed rfl
  exact ⟨h.1, h.2.1 polGood (by decide), h.2.2⟩

/-! ### Party row transformation and the read operations' error handling -/

/-- `String.prototype.toUpperCase` restricted to the character-wise upcasing
the party descriptions rely on. -/
def toUpperString (s : String) : String :=
  String.mk (s.data.map Char.toUpper)

/-- A stored party row (`interface DBParty` in the source). -/
structure DBParty where
  id : String
  name : String
  type : String
  country : String
  founded : Option Int
  website : Option String
  econ_freedom : Option ℚ
  personal_freedom : Option ℚ
deriving DecidableEq, Repr

/-- The normalized party shape (`PoliticalParty` in `src/types/political.ts`);
the source always sets `logo` and `support` to `undefined`, so they are
omitted. -/
structure PoliticalParty where
  id : String
  name : String
  shortName : String
  econFreedom : ℚ
  personalFreedom : ℚ
  ideology : Ideology
  description : String
  website : Option String
  founded : Option Int
deriving DecidableEq, Repr

/-- Translation of `transformDBPartyToAppParty`: nulls collapse to zero via
`??`, ideology is derived from the collapsed scores, and the description is
the literal template over name, type and upper-cased country. -/
def transformDBPartyToAppParty (dbParty : DBParty) : PoliticalParty :=
  let econFreedom := dbParty.econ_freedom.getD 0
  let personalFreedom := dbParty.personal_freedom.getD 0
  { id := dbParty.id
    name := dbParty.name
    shortName := shortNameOf dbParty.name
    econFreedom := econFreedom
    personalFreedom := personalFreedom
    ideology := determineIdeology econFreedom personalFreedom
    description :=
      dbParty.name ++ " is a " ++ dbParty.type ++ " in " ++ toUpperString dbParty.country ++ "."
    website := dbParty.website
    founded := dbParty.founded }

/-- A country entry as returned by the countries read operation. -/
structure Country where
  code : String
  name : String
  flag : Option String
deriving DecidableEq, Repr

/-- The fixed flag lookup table (`COUNTRY_FLAGS` / `countryFlags`). -/
def COUNTRY_FLAGS : List (String × String) :=
  [("Czech Republic", "🇨🇿"), ("Slovakia", "🇸🇰"), ("Poland", "🇵🇱"),
   ("Germany", "🇩🇪"), ("Austria", "🇦🇹"), ("Hungary", "🇭🇺"),
   ("United States", "🇺🇸"), ("United Kingdom", "🇬🇧"), ("France", "🇫🇷")]

/-- `countryFlags[name]`: record lookup, `undefined` when absent. -/
def flagFor (name : String) : Option String :=
  (COUNTRY_FLAGS.find? (fun kv => kv.1 == name)).map Prod.snd

/-- `fetchCountries` of the plain browser variant (`src/unnamed/part_002`
lines 185–227).  `init` is the outcome of `await initDatabase()`, which sits
*outside* the try/catch and therefore propagates; `query` is the outcome of
the `db.exec` round trip, whose errors the try/catch turns into `[]`.  This
variant maps the country rows without the null/empty filter of the later
variants. -/
def fetchCountries_v1 (init : Except String Unit) (query : Except String (List String)) :
    Except String (List Country) :=
  match init with
  | .error e => .error e
  | .ok _ =>
    match query with
    | .error _ => .ok []
    | .ok rows => .ok (rows.map (fun name => { code := name, name := name, flag := flagFor name }))

/-- `fetchParties` of the plain browser variant (same file, lines 230–272):
init outside the try/catch, query inside. -/
def fetchParties_v1 (init : Except String Unit) (query : Except String (List DBParty)) :
    Except String (List PoliticalParty) :=
  match init with
  | .error e => .error e
  | .ok _ =>
    match query with
    | .error _ => .ok []
    | .ok rows => .ok (rows.map transformDBPartyToAppParty)

/-- `fetchPartyPolicies` of the plain browser variant (same file, lines
275–341): init outside the try/catch, query and per-row loop inside. -/
def fetchPartyPolicies_v1 (parse : String → Option JsonValue) (init : Except String Unit)
    (query : Except String (List LLMRow)) : Except String (List PolicyAnalysis) :=
  match init with
  | .error e => .error e
  | .ok _ =>
    match query with
    | .error _ => .ok []
    | .ok rows => .ok (rows.filterMap (rowToPolicy parse))

/-- `fetchCountriesFromDatabase` (`src/api/parties.ts` lines 288–340, SQLite
branch; the Postgres branch has the same try/catch shape): here `await
ensureSqlite()` and the query both sit inside the try/catch, so every
internal failure degrades to `[]`. -/
def fetchCountriesFromDatabase (init : Except String Unit)
    (query : Except String (List (Option String))) : Except String (List Country) :=
  match init with
  | .error _ => .ok []
  | .ok _ =>
    match query with
    | .error _ => .ok []
    | .ok rows =>
      .ok ((rows.filterMap
          (fun name? => match name? with
            | some n => if n = "" then none else some n
            | none => none)).map
        (fun name => { code := name, name := name, flag := flagFor name }))

/-- `fetchPartiesFromDatabase` (same file, SQLite branch): init and query
inside the try/catch. -/
def fetchPartiesFromDatabase (init : Except String Unit)
    (query : Except String (List DBParty)) : Except String (List PoliticalParty) :=
  match init with
  | .error _ => .ok []
  | .ok _ =>
    match query with
    | .error _ => .ok []
    | .ok rows => .ok (rows.map transformDBPartyToAppParty)

/-- `fetchPartyPoliciesFromDatabase` (same file, SQLite branch): init, query
and the per-row loop inside the try/catch. -/
def fetchPartyPoliciesFromDatabase (parse : String → Option JsonValue)
    (init : Except String Unit) (query : Except String (List LLMRow)) :
    Except String (List PolicyAnalysis) :=
  match init with
  | .error _ => .ok []
  | .ok _ =>
    match query with
    | .error _ => .ok []
    | .ok rows => .ok (rows.filterMap (rowToPolicy parse))

/-- **C2 counterexample** In the plain browser variant a failure of the
one-time initialization propagates to the caller of `fetchCountries`
instead of degrading to the empty array. -/
theorem fetchCountries_v1_propagates_init_failure :
    fetchCountries_v1 (.error "Failed to fetch database") (.ok [])
      = .error "Failed to fetch database"
    ∧ fetchCountries_v1 (.error "Failed to fetch database") (.ok []) ≠ .ok [] := by
  exact ⟨rfl, fun h => by cases h⟩

/-- **C2 amended** Every caught internal failure degrades to the *empty*
array: in the server `databaseService` variant an initialization failure or
a query failure makes each of the three read operations return `.ok []`,
and each of them never throws; in the plain browser variant a query failure
likewise degrades to `.ok []` and the operations never throw once the
initialization succeeded — but an initialization failure propagates to the
caller of each of the three read operations. -/
theorem readOps_error_handling :
    ∀ (parse : String → Option JsonValue) (init : Except String Unit)
      (qc : Except String (List (Option String))) (qc1 : Except String (List String))
      (qp : Except String (List DBParty)) (ql : Except String (List LLMRow)),
      (∀ e, init = .error e →
          fetchCountriesFromDatabase init qc = .ok []
          ∧ fetchPartiesFromDatabase init qp = .ok []
          ∧ fetchPartyPoliciesFromDatabase parse init ql = .ok [])
      ∧ (∀ e, qc = .error e → fetchCountriesFromDatabase init qc = .ok [])
      ∧ (∀ e, qp = .error e → fetchPartiesFromDatabase init qp = .ok [])
      ∧ (∀ e, ql = .error e → fetchPartyPoliciesFromDatabase parse init ql = .ok [])
      ∧ (∃ l, fetchCountriesFromDatabase init qc = .ok l)
      ∧ (∃ l, fetchPartiesFromDatabase init qp = .ok l)
      ∧ (∃ l, fetchPartyPoliciesFromDatabase parse init ql = .ok l)
      ∧ (init = .ok () →
          (∀ e, qc1 = .error e → fetchCountries_v1 init qc1 = .ok [])
          ∧ (∀ e, qp = .error e → fetchParties_v1 init qp = .ok [])
          ∧ (∀ e, ql = .error e → fetchPartyPolicies_v1 parse init ql = .ok [])
          ∧ (∃ l, fetchCountries_v1 init qc1 = .ok l)
          ∧ (∃ l, fetchParties_v1 init qp = .ok l)
          ∧ (∃ l, fetchPartyPolicies_v1 parse init ql = .ok l))
      ∧ (∀ e, init = .error e →
          fetchCountries_v1 init qc1 = .error e
          ∧ fetchParties_v1 init qp = .error e
          ∧ fetchPartyPolicies_v1 parse init ql = .error e) := by
  intro parse init qc qc1 qp ql
  refine ⟨?_, ?_, ?_, ?_, ?_, ?_, ?_, ?_, ?_⟩
  · rintro e rfl
    exact ⟨rfl, rfl, rfl⟩
  · rintro e rfl
    cases init <;> rfl
  · rintro e rfl
    cases init <;> rfl
  · rintro e rfl
    cases init <;> rfl
  · cases init <;> cases qc <;> exact ⟨_, rfl⟩
  · cases init <;> cases qp <;> exact ⟨_, rfl⟩
  · cases init <;> cases ql <;> exact ⟨_, rfl⟩
  · rintro rfl
    exact ⟨fun e he => by cases he; rfl, fun e he => by cases he; rfl,
      fun e he => by cases he; rfl,
      by cases qc1 <;> exact ⟨_, rfl⟩, by cases qp <;> exact ⟨_, rfl⟩,
      by cases ql <;> exact ⟨_, rfl⟩⟩
  · rintro e rfl
    exact ⟨rfl, rfl, rfl⟩

/-- **C2 amended witness** The error-handling theorem instantiated at a
concrete failing initialization and a concrete failing query: every caught
failure yields the literal empty array, and the browser variant propagates
the init failure. -/
theorem readOps_error_handling_witness :
    fetchCountriesFromDatabase (.error "boom") (.error "boom") = .ok []
    ∧ fetchPartiesFromDatabase (.error "boom") (.error "boom") = .ok []
    ∧ fetchPartyPoliciesFromDatabase (fun _ => none) (.error "boom") (.error "boom") = .ok []
    ∧ fetchCountriesFromDatabase (.ok ()) (.error "boom") = .ok []
    ∧ fetchCountries_v1 (.ok ()) (.error "boom") = .ok []
    ∧ fetchCountries_v1 (.error "boom") (.error "boom") = .error "boom" := by
  have h1 := readOps_error_handling (fun _ => none) (.error "boom") (.error "boom")
    (.error "boom") (.error "boom") (.error "boom")
  have h2 := readOps_error_handling (fun _ => none) (.ok ()) (.error "boom")
    (.error "boom") (.error "boom") (.error "boom")
  have ha := h1.1 "boom" rfl
  exact ⟨ha.1, ha.2.1, ha.2.2, h2.2.1 "boom" rfl, (h2.2.2.2.2.2.2.2.1 rfl).1 "boom" rfl,
    (h1.2.2.2.2.2.2.2.2 "boom" rfl).1⟩

/-! ### Lazy connection managers -/

/-- The module-level state of one connection manager: whether the store
handle is cached, and the cached initialization promise, carried together
with its settled outcome (`some true` succeeds, `some false` fails). -/
structure ConnState where
  db : Bool
  promise : Option Bool
deriving DecidableEq, Repr

/-- One complete call to `initDatabase` (`src/unnamed/part_002` lines 8–40)
in the sequential model; `fresh` is the outcome a newly started
initialization attempt would have.  The catch inside the memoized attempt
only logs and rethrows: neither `initPromise` nor `db` is cleared on
failure, so a cached failed attempt is replayed by later calls. -/
def initDatabaseCall (s : ConnState) (fresh : Bool) : Bool × ConnState :=
  if s.db then (true, s)
  else
    match s.promise with
    | some outcome => (outcome, s)
    | none =>
      if fresh then (true, { db := true, promise := some true })
      else (false, { db := false, promise := some false })

/-- One complete call to `ensureSqlite` (`src/api/parties.ts` lines 260–286
and its identical copies): an attempt starts only when none is cached, and
the catch around the await clears both `sqliteInitPromise` and `sqliteDb`
before rethrowing. -/
def ensureSqliteCall (s : ConnState) (fresh : Bool) : Bool × ConnState :=
  if s.db then (true, s)
  else
    let p := s.promise.getD fresh
    if p then (true, { db := true, promise := some true })
    else (false, { db := false, promise := none })

/-- One complete call to `ensurePostgres` (`src/api/parties.ts` lines
198–234): guarded by the `usePostgres` configuration flag (which implies a
connection string is present), otherwise the same memoize-and-clear shape
as `ensureSqlite`, with the Neon-then-pg driver fallback folded into the
single attempt outcome. -/
def ensurePostgresCall (usePostgres : Bool) (s : ConnState) (fresh : Bool) : Bool × ConnState :=
  if !usePostgres then (false, s)
  else if s.db then (true, s)
  else
    let p := s.promise.getD fresh
    if p then (true, { db := true, promise := some true })
    else (false, { db := false, promise := none })

/-- **C4 counterexample** After a failed first initialization,
`initDatabase` leaves the rejected attempt cached: the state is not cleared
and the next call fails even though a fresh attempt would succeed. -/
theorem initDatabase_keeps_stale_failure :
    (initDatabaseCall ⟨false, none⟩ false).2 = ⟨false, some false⟩
    ∧ (initDatabaseCall (initDatabaseCall ⟨false, none⟩ false).2 true).1 = false := by
  decide

/-- **C4 amended** On a failed initialization attempt, `ensureSqlite` and
`ensurePostgres` clear both the cached attempt and the cached handle before
the error surfaces, so their next call retries from the uninitialized state
and succeeds when the fresh attempt succeeds; `initDatabase` instead keeps
the rejected attempt cached, and every later call replays the stale
failure. -/
theorem connManager_failure_clearing :
    ∀ (s : ConnState) (fresh : Bool),
      ((ensureSqliteCall s fresh).1 = false → (ensureSqliteCall s fresh).2 = ⟨false, none⟩)
      ∧ (∀ usePg : Bool, usePg = true → (ensurePostgresCall usePg s fresh).1 = false →
          (ensurePostgresCall usePg s fresh).2 = ⟨false, none⟩)
      ∧ ((ensureSqliteCall ⟨false, none⟩ true).1 = true)
      ∧ (s = ⟨false, none⟩ → fresh = false →
          (initDatabaseCall s fresh).2 = ⟨false, some false⟩
          ∧ ∀ fresh2, (initDatabaseCall (initDatabaseCall s fresh).2 fresh2).1 = false) := by
  intro s fresh
  obtain ⟨db, promise⟩ := s
  refine ⟨?_, ?_, by decide, ?_⟩
  · cases db <;> rcases promise with _ | b <;> cases fresh <;>
      simp [ensureSqliteCall] <;> cases b <;> simp
  · rintro usePg rfl
    cases db <;> rcases promise with _ | b <;> cases fresh <;>
      simp [ensurePostgresCall] <;> cases b <;> simp
  · rintro h rfl
    cases h
    exact ⟨rfl, fun fresh2 => by cases fresh2 <;> rfl⟩

/-- **C4 amended witness** The clearing theorem instantiated at the state
holding a cached failed attempt (for the ensure-style managers) and at the
uninitialized state with a failing first attempt (for `initDatabase`). -/
theorem connManager_failure_clearing_witness :
    (ensureSqliteCall ⟨false, some false⟩ true).2 = ⟨false, none⟩
    ∧ (ensurePostgresCall true ⟨false, some false⟩ true).2 = ⟨false, none⟩
    ∧ (initDatabaseCall ⟨false, none⟩ false).2 = ⟨false, some false⟩ := by
  have h := connManager_failure_clearing ⟨false, some false⟩ true
  have h2 := connManager_failure_clearing ⟨false, none⟩ false
  exact ⟨h.1 (by decide), h.2.1 true rfl (by decide), (h2.2.2.2 rfl rfl).1⟩

/-! ### Concurrent callers against the lazy connection manager -/

/-- Observable module state of a connection manager under concurrent
cooperative callers: whether the handle is cached, whether a promise is
cached, how many attempts are currently in flight, and how many were ever
started (the spec's test counter on the store-construction side). -/
structure MgrState where
  ready : Bool
  promiseSet : Bool
  inflight : Nat
  started : Nat
deriving DecidableEq, Repr

/-- The step relation induced by `ensureSqlite` / `ensurePostgres` under
cooperative scheduling: a caller's synchronous prefix (the handle check, the
promise check and — when no promise is cached — the creation of a new
attempt) runs without a suspension point, so it is one atomic step; an
attempt settles later in a separate step, clearing the promise on failure
and caching the handle on success. -/
inductive MgrStep : MgrState → MgrState → Prop where
  | callReady (s : MgrState) (h : s.ready = true) : MgrStep s s
  | callAwait (s : MgrState) (h : s.ready = false) (hp : s.promiseSet = true) : MgrStep s s
  | callStart (s : MgrState) (h : s.ready = false) (hp : s.promiseSet = false) :
      MgrStep s ⟨false, true, s.inflight + 1, s.started + 1⟩
  | settleOk (s : MgrState) (h : 0 < s.inflight) :
      MgrStep s ⟨true, s.promiseSet, s.inflight - 1, s.started⟩
  | settleErr (s : MgrState) (h : 0 < s.inflight) :
      MgrStep s ⟨false, false, s.inflight - 1, s.started⟩

/-- The manager's initial (uninitialized) module state. -/
def mgrInit : MgrState := ⟨false, false, 0, 0⟩

/-- States reachable from the uninitialized module state. -/
inductive MgrReachable : MgrState → Prop where
  | init : MgrReachable mgrInit
  | step {s s' : MgrState} : MgrReachable s → MgrStep s s' → MgrReachable s'

/-- Inductive invariant of the manager: never more than one attempt in
flight, and none at all while no promise is cached. -/
theorem mgrInvariant (s : MgrState) (hs : MgrReachable s) :
    s.inflight ≤ 1 ∧ (s.promiseSet = false → s.inflight = 0) := by
  induction hs with
  | init => exact ⟨by decide, fun _ => rfl⟩
  | step hprev hstep ih =>
    rename_i s1 s2
    cases hstep with
    | callReady h => exact ih
    | callAwait h hp => exact ih
    | callStart h hp =>
      have h0 := ih.2 hp
      exact ⟨by simp [h0], by simp⟩
    | settleOk h =>
      refine ⟨?_, ?_⟩
      · have h1 := ih.1
        show s1.inflight - 1 ≤ 1
        omega
      · intro hp
        have h2 := ih.2 hp
        show s1.inflight - 1 = 0
        omega
    | settleErr h =>
      refine ⟨?_, ?_⟩
      · have h1 := ih.1
        show s1.inflight - 1 ≤ 1
        omega
      · intro _
        have h1 := ih.1
        show s1.inflight - 1 = 0
        omega

/-- **C3** In every reachable state of the connection manager at most one
initialization attempt is in flight, and no step can start a new attempt
(increase the started counter) unless none is in flight — concurrent
callers arriving while one is pending all await it instead of starting a
second one. -/
theorem single_inflight_initialization :
    ∀ s : MgrState, MgrReachable s →
      s.inflight ≤ 1
      ∧ (∀ s', MgrStep s s' → s.started < s'.started → s.inflight = 0)
      ∧ (∀ s', MgrStep s s' → 0 < s.inflight → s'.started = s.started) := by
  intro s hs
  refine ⟨(mgrInvariant s hs).1, ?_, ?_⟩
  · intro s' hstep hstarted
    cases hstep with
    | callReady h => exact absurd hstarted (lt_irrefl _)
    | callAwait h hp => exact absurd hstarted (lt_irrefl _)
    | callStart h hp => exact (mgrInvariant s hs).2 hp
    | settleOk h => exact absurd hstarted (lt_irrefl _)
    | settleErr h => exact absurd hstarted (lt_irrefl _)
  · intro s' hstep hinflight
    cases hstep with
    | callReady h => rfl
    | callAwait h hp => rfl
    | callStart h hp =>
      have h0 := (mgrInvariant s hs).2 hp
      omega
    | settleOk h => rfl
    | settleErr h => rfl

/-- **C3 witness** The single-in-flight theorem instantiated at the initial
state (whose reachability is immediate), at the concrete step that starts
the first attempt, and at a caller that arrives while that attempt is
pending and therefore leaves the started counter unchanged. -/
theorem single_inflight_initialization_witness :
    mgrInit.inflight ≤ 1 ∧ mgrInit.inflight = 0
    ∧ (MgrState.mk false true 1 1).started = (MgrState.mk false true 1 1).started :=
  ⟨(single_inflight_initialization mgrInit MgrReachable.init).1,
    (single_inflight_initialization mgrInit MgrReachable.init).2.1 ⟨false, true, 1, 1⟩
      (MgrStep.callStart mgrInit rfl rfl) (by decide),
    (single_inflight_initialization ⟨false, true, 1, 1⟩
        (MgrReachable.step MgrReachable.init (MgrStep.callStart mgrInit rfl rfl))).2.2
      ⟨false, true, 1, 1⟩ (MgrStep.callAwait ⟨false, true, 1, 1⟩ rfl rfl) (by decide)⟩

/-! ### Browser-hosted variant: HTTP API with bundled-SQLite fallback -/

/-- Outcome of a same-origin HTTP request as `fetchFromApi` observes it:
either the fetch or the body parse throws, or a response arrives carrying
its success flag and parsed body. -/
inductive ApiAttempt (α : Type) where
  | fail
  | response (ok : Bool) (body : α)

/-- Translation of `fetchFromApi` (`src/unnamed/part_002` lines 983–999, in
the browser environment): `null` when the request throws or the status is
not a success, the parsed body otherwise. -/
def fetchFromApi {α : Type} (att : ApiAttempt α) : Option α :=
  match att with
  | .fail => none
  | .response ok body => if ok then some body else none

/-- `fetchCountries` of the browser-hosted variant: use the API data when
present (a JavaScript array — even an empty one — is truthy), else the
bundled SQLite fallback result `fb`. -/
def fetchCountriesBrowser (att : ApiAttempt (List Country)) (fb : List Country) : List Country :=
  match fetchFromApi att with
  | some d => d
  | none => fb

/-- `fetchParties` of the browser-hosted variant (`src/unnamed/part_002`
lines 1075–1083). -/
def fetchPartiesBrowser (att : ApiAttempt (List PoliticalParty)) (fb : List PoliticalParty) :
    List PoliticalParty :=
  match fetchFromApi att with
  | some d => d
  | none => fb

/-- `fetchPartyPolicies` of the browser-hosted variant (same file, lines
1146–1154). -/
def fetchPartyPoliciesBrowser (att : ApiAttempt (List PolicyAnalysis))
    (fb : List PolicyAnalysis) : List PolicyAnalysis :=
  match fetchFromApi att with
  | some d => d
  | none => fb

/-- **C9** Each of the three browser-variant read operations returns the
HTTP API body exactly when the call succeeds with a success status — as-is,
including an empty array — and falls back to the bundled SQLite result
exactly when the call fails or the status is not a success. -/
theorem browser_api_fallback :
    ∀ (attC : ApiAttempt (List Country)) (attP : ApiAttempt (List PoliticalParty))
      (attL : ApiAttempt (List PolicyAnalysis)) (fbC : List Country)
      (fbP : List PoliticalParty) (fbL : List PolicyAnalysis),
      (∀ body, attC = .response true body → fetchCountriesBrowser attC fbC = body)
      ∧ ((attC = .fail ∨ ∃ b, attC = .response false b) → fetchCountriesBrowser attC fbC = fbC)
      ∧ (∀ body, attP = .response true body → fetchPartiesBrowser attP fbP = body)
      ∧ ((attP = .fail ∨ ∃ b, attP = .response false b) → fetchPartiesBrowser attP fbP = fbP)
      ∧ (∀ body, attL = .response true body → fetchPartyPoliciesBrowser attL fbL = body)
      ∧ ((attL = .fail ∨ ∃ b, attL = .response false b) →
          fetchPartyPoliciesBrowser attL fbL = fbL)
      ∧ fetchCountriesBrowser (.response true []) fbC = [] := by
  intro attC attP attL fbC fbP fbL
  refine ⟨?_, ?_, ?_, ?_, ?_, ?_, rfl⟩ <;>
    first
      | rintro body rfl; rfl
      | rintro (rfl | ⟨b, rfl⟩) <;> rfl

/-- **C9 witness** The fallback theorem instantiated at a successful empty
response and at a failed request. -/
theorem browser_api_fallback_witness :
    fetchCountriesBrowser (.response true []) [⟨"X", "X", none⟩] = []
    ∧ fetchPartiesBrowser .fail [] = []
    ∧ fetchCountriesBrowser (.response false [⟨"Y", "Y", none⟩]) [⟨"X", "X", none⟩]
        = [⟨"X", "X", none⟩] := by
  have h1 := browser_api_fallback (.response true []) .fail .fail
    [⟨"X", "X", none⟩] [] []
  have h2 := browser_api_fallback (.response false [⟨"Y", "Y", none⟩]) .fail .fail
    [⟨"X", "X", none⟩] [] []
  exact ⟨h1.1 [] rfl, h1.2.2.2.1 (Or.inl rfl), h2.2.1 (Or.inr ⟨_, rfl⟩)⟩

/-! ### HTTP handlers -/

/-- The responses a handler can produce. -/
inductive ApiResp (α : Type) where
  | methodNotAllowed
  | badRequest (msg : String)
  | ok (body : α)
  | serverError
deriving DecidableEq

/-- The 405 guard shared by the three handlers:
`req.method && req.method !== 'GET'` — an absent method is falsy (and so is
the empty string), so only a truthy non-GET method triggers the guard. -/
def methodRejected (method : Option String) : Bool :=
  match method with
  | some m => (m != "") && (m != "GET")
  | none => false

/-- The `/api/countries` handler (`src/unnamed/part_000`): 405 guard, then
the fetch, 200 on success and 500 on a thrown error. -/
def countriesHandler (method : Option String) (fetchResult : Except String (List Country)) :
    ApiResp (List Country) :=
  if methodRejected method then .methodNotAllowed
  else
    match fetchResult with
    | .ok body => .ok body
    | .error _ => .serverError

/-- The `/api/parties` handler (`src/api/parties.ts` lines 7–26): 405
guard, 400 when the `country` query parameter is falsy, then the fetch. -/
def partiesHandler (method : Option String) (country : Option String)
    (fetchResult : Except String (List PoliticalParty)) : ApiResp (List PoliticalParty) :=
  if methodRejected method then .methodNotAllowed
  else if strTruthy country = false then
    .badRequest "Missing required query parameter \x22country\x22"
  else
    match fetchResult with
    | .ok body => .ok body
    | .error _ => .serverError

/-- The `/api/policies` handler (`src/api/policies.ts`): 405 guard, 400
when the `partyId` query parameter is falsy, then the fetch. -/
def policiesHandler (method : Option String) (partyId : Option String)
    (fetchResult : Except String (List PolicyAnalysis)) : ApiResp (List PolicyAnalysis) :=
  if methodRejected method then .methodNotAllowed
  else if strTruthy partyId = false then
    .badRequest "Missing required query parameter \x22partyId\x22"
  else
    match fetchResult with
    | .ok body => .ok body
    | .error _ => .serverError

/-- **C10** In each of the three handlers the 405 rejection fires only when
the method field is present and different from `GET`, and a request with an
absent method is not rejected with 405: it is processed exactly as a GET
request. -/
theorem handlers_method_guard :
    ∀ (method country partyId : Option String) (fc : Except String (List Country))
      (fp : Except String (List PoliticalParty)) (fl : Except String (List PolicyAnalysis)),
      (countriesHandler method fc = .methodNotAllowed → ∃ m, method = some m ∧ m ≠ "GET")
      ∧ (partiesHandler method country fp = .methodNotAllowed →
          ∃ m, method = some m ∧ m ≠ "GET")
      ∧ (policiesHandler method partyId fl = .methodNotAllowed →
          ∃ m, method = some m ∧ m ≠ "GET")
      ∧ countriesHandler none fc = countriesHandler (some "GET") fc
      ∧ partiesHandler none country fp = partiesHandler (some "GET") country fp
      ∧ policiesHandler none partyId fl = policiesHandler (some "GET") partyId fl := by
  intro method country partyId fc fp fl
  have hGET : methodRejected (some "GET") = false := by decide
  have hkey : ∀ m : Option String, methodRejected m = true → ∃ s, m = some s ∧ s ≠ "GET" := by
    intro m hm
    cases m with
    | none => simp [methodRejected] at hm
    | some s =>
      simp only [methodRejected, Bool.and_eq_true, bne_iff_ne] at hm
      exact ⟨s, rfl, hm.2⟩
  have hNone : methodRejected none = false := rfl
  refine ⟨?_, ?_, ?_, ?_, ?_, ?_⟩
  · intro h
    refine hkey method ?_
    by_contra hr
    unfold countriesHandler at h
    rw [if_neg hr] at h
    cases fc <;> simp at h
  · intro h
    refine hkey method ?_
    by_contra hr
    unfold partiesHandler at h
    rw [if_neg hr] at h
    by_cases hc : strTruthy country = false
    · rw [if_pos hc] at h
      simp at h
    · rw [if_neg hc] at h
      cases fp <;> simp at h
  · intro h
    refine hkey method ?_
    by_contra hr
    unfold policiesHandler at h
    rw [if_neg hr] at h
    by_cases hc : strTruthy partyId = false
    · rw [if_pos hc] at h
      simp at h
    · rw [if_neg hc] at h
      cases fl <;> simp at h
  · simp [countriesHandler, hGET, hNone]
  · simp [partiesHandler, hGET, hNone]
  · simp [policiesHandler, hGET, hNone]

/-- **C10 witness** The method-guard theorem instantiated at a POST request
and at concrete fetch results. -/
theorem handlers_method_guard_witness :
    (∃ m, (some "POST" : Option String) = some m ∧ m ≠ "GET")
    ∧ countriesHandler none (.ok []) = countriesHandler (some "GET") (.ok []) := by
  have h := handlers_method_guard (some "POST") (some "cz") (some "p1") (.ok []) (.ok [])
    (.ok [])
  have h2 := handlers_method_guard none (some "cz") (some "p1") (.ok []) (.ok []) (.ok [])
  exact ⟨h.1 rfl, h2.2.2.2.1⟩

end PoliticalPulse
